import Mathlib

/-!
Verification development for the FOCX insurance-fund vault repository.

The repository ships the TypeScript client, admin CLI, tests and the Anchor
IDL of the on-chain program `simple_vault`.  The accounting records (`Vault`,
`VaultDepositor`, `UnstakeRequest`) are embedded below with the fields the
claims touch; numbers fetched from the chain are `u64`/`u128`/`i64` values,
so they are modelled as `Nat`/`Int`, and JavaScript arithmetic on them is
modelled exactly over `Rat` (with `Int.floor` for `Math.floor` and an
`Option` result marking a division whose divisor is zero, which in the
source produces a non-finite number).

The on-chain engine itself (the Rust instruction handlers) is not part of
the repository sources; the definitions in the `Engine` section are
modelled from the specification, as indicated by their doc comments.
-/

namespace SimpleVault

/-- Fixed-point precision for `asset_per_share_at_request` (1e12, quoted in
the client sources as defined in constants.rs). -/
def PRECISION : ℕ := 10 ^ 12

/-- Largest `u64` value.  Checked `u64` arithmetic fails past this bound, and
the request-unstake `amount` argument equal to it is the sentinel meaning
"all of this depositor's value". -/
def U64MAX : ℕ := 2 ^ 64 - 1

/-- Pending unstake request stored on the depositor record (IDL struct
`unstakeRequest`: `shares : u64`, `requestTime : i64`,
`assetPerShareAtRequest : u128`).  `shares = 0` encodes absence. -/
structure UnstakeRequest where
  shares : ℕ := 0
  requestTime : ℤ := 0
  assetPerShareAtRequest : ℕ := 0
  deriving Repr, DecidableEq

/-- The vault accounting record (the numeric fields of the IDL `vault`
account that the claims touch).  Field defaults are the documented
initialization defaults: lockup 14 days, fee 0, min stake 0, max assets 0
(the "unlimited" sentinel), not paused, cumulative rebase factor 1. -/
structure Vault where
  totalShares : ℕ := 0
  totalAssets : ℕ := 0
  reservedAssets : ℕ := 0
  pendingUnstakeShares : ℕ := 0
  totalRewards : ℕ := 0
  managementFee : ℕ := 0
  minStakeAmount : ℕ := 0
  maxTotalAssets : ℕ := 0
  unstakeLockupPeriod : ℤ := 14 * 24 * 60 * 60
  isPaused : Bool := false
  rebaseVersion : ℕ := 0
  sharesBase : ℕ := 1
  lastRewardsUpdate : ℤ := 0
  deriving Repr, DecidableEq

/-- The per-user depositor record (IDL `vaultDepositor` fields the claims
touch).  `lastSharesBase` is the cumulative rebase factor snapshot the
spec's "accumulated factor delta" of `sync_rebase` is computed against. -/
structure Depositor where
  shares : ℕ := 0
  unstakeRequest : UnstakeRequest := {}
  totalStaked : ℕ := 0
  totalUnstaked : ℕ := 0
  lastRebaseVersion : ℕ := 0
  lastSharesBase : ℕ := 1
  lastStakeTime : ℤ := 0
  deriving Repr, DecidableEq

/-! ### Client-side query computations (embedded from the TypeScript sources)

The client fetches the integer account fields and computes with JavaScript
numbers; integer values and their exact rational arithmetic are modelled
over `Int`/`Rat`. -/

/-- activeShares as the clients compute it: `totalShares - pendingUnstakeShares`
over JavaScript numbers (may be negative). -/
def activeSharesZ (v : Vault) : ℤ := (v.totalShares : ℤ) - v.pendingUnstakeShares

/-- availableAssets as the clients compute it: `totalAssets - reservedAssets`
over JavaScript numbers (may be negative). -/
def availableAssetsZ (v : Vault) : ℤ := (v.totalAssets : ℤ) - v.reservedAssets

/-- JavaScript division `a / b`: the exact quotient, or `none` when the
divisor is zero (the source then produces the non-finite Infinity/NaN). -/
def jsDiv (a b : ℚ) : Option ℚ := if b = 0 then none else some (a / b)

/-- Result triple of `calculateUserValue` (tests, `src/unnamed/part_002`). -/
structure UserValueResult where
  shares : ℕ
  value : ℤ
  sharePercent : Option ℚ
  deriving Repr, DecidableEq

/-- Embedding of `calculateUserValue` (`src/unnamed/part_002`, lines 78-100):
fetches the two records, computes `availableAssets`, `activeShares`, the
floor value guarded by `activeShares > 0`, and the share percentage
`(shares * 100) / activeShares` (this last division is not guarded). -/
def calculateUserValue (v : Vault) (d : Depositor) : UserValueResult :=
  let shares := d.shares
  let availableAssets := availableAssetsZ v
  let activeShares := activeSharesZ v
  let value : ℤ :=
    if 0 < activeShares then ⌊((shares : ℚ) * (availableAssets : ℚ)) / (activeShares : ℚ)⌋
    else 0
  let sharePercent := jsDiv ((shares : ℚ) * 100) (activeShares : ℚ)
  ⟨shares, value, sharePercent⟩

/-- `calculateUserValue` together with the records it leaves behind: the
source performs account fetches only, so both records are returned as
fetched.  Used to state that the query mutates neither record. -/
def calculateUserValueRun (v : Vault) (d : Depositor) :
    UserValueResult × Vault × Depositor :=
  (calculateUserValue v d, v, d)

/-- Embedding of `getUserAssetValue` (`src/user-operation.ts`, lines 346-373):
guarded by `totalShares > 0`, divides `userShares * totalAssets` by
`totalShares` with plain JavaScript division (no flooring). -/
def getUserAssetValueRoot (v : Vault) (d : Depositor) : ℚ :=
  if 0 < v.totalShares then
    ((d.shares : ℚ) * (v.totalAssets : ℚ)) / (v.totalShares : ℚ)
  else 0

/-- Embedding of `getUserAssetValue` (`src/client/user-operation.ts`, lines
389-430): guarded by `activeShares > 0`, divides `userShares * availableAssets`
by `activeShares` with plain JavaScript division (no flooring). -/
def getUserAssetValueClient (v : Vault) (d : Depositor) : ℚ :=
  if 0 < activeSharesZ v then
    ((d.shares : ℚ) * (availableAssetsZ v : ℚ)) / ((activeSharesZ v : ℚ))
  else 0

/-- Result of `checkUnstakeRequestStatus`. -/
structure UnstakeStatus where
  canUnstake : Bool
  remainingTime : ℤ
  deriving Repr, DecidableEq

/-- Embedding of `checkUnstakeRequestStatus` (`src/client/user-operation.ts`
lines 467-522, identically `src/user-operation.ts` lines 405-439 and the
test helper in `src/tests/execute-unstake.ts`): with no pending request the
answer is `(false, 0)`; otherwise `remainingTime = max 0 (unlockTime - now)`
and unstake is allowed exactly when it is zero.  The sources read the
current time from the system clock; it is the `currentTime` parameter here. -/
def checkUnstakeRequestStatus (d : Depositor) (lockupPeriod currentTime : ℤ) :
    UnstakeStatus :=
  if d.unstakeRequest.shares = 0 then ⟨false, 0⟩
  else
    let unlockTime := d.unstakeRequest.requestTime + lockupPeriod
    let remainingTime := max 0 (unlockTime - currentTime)
    ⟨remainingTime == 0, remainingTime⟩

/-! ### Admin CLI validation (embedded from `src/client/update-vault-params.ts`)

The CLI parses the argument with `parseFloat` and validates it before any
transaction is built; values are modelled as exact rationals.  An error
return short-circuits the command, so nothing reaches `updateVaultConfig`. -/

/-- Errors thrown by the lockup-update command line validation. -/
inductive AdminCliError where
  | invalidInput
  | lockupTooShort
  | lockupTooLong
  deriving Repr, DecidableEq

/-- Embedding of the `update-lockup <hours>` branch (lines 304-329): rejects a
non-positive parse, a value below 10 minutes (`10 / 60` hours) or above 90
days (`90 * 24` hours); on success the hours value is converted to seconds
inside `updateVaultConfig` (`* 60 * 60`). -/
def updateLockupHours (h : ℚ) : Except AdminCliError ℚ :=
  if h ≤ 0 then .error .invalidInput
  else if h < 10 / 60 then .error .lockupTooShort
  else if 90 * 24 < h then .error .lockupTooLong
  else .ok (h * 60 * 60)

/-- Embedding of the `update-lockup-min <minutes>` branch (lines 331-359):
rejects a non-positive parse, a value below 10 minutes or above 90 days
(`90 * 24 * 60` minutes); on success the minutes are converted to hours
(`/ 60`) and then to seconds inside `updateVaultConfig`. -/
def updateLockupMinutes (m : ℚ) : Except AdminCliError ℚ :=
  if m ≤ 0 then .error .invalidInput
  else if m < 10 then .error .lockupTooShort
  else if 90 * 24 * 60 < m then .error .lockupTooLong
  else .ok (m / 60 * 60 * 60)

/-- Whether an `Except` computation succeeded. -/
def exceptOk {ε α : Type} : Except ε α → Bool
  | .ok _ => true
  | .error _ => false

/-! ### Vault PDA derivation (embedded from `getVaultPDA`)

`getVaultPDA` writes the configured vault name into a fresh 32-byte
zero-filled buffer (`Buffer.alloc(32)` then `buffer.write(name)`, which
silently stops at the buffer's end) and derives the program address from
the constant seed and that buffer.  The name is modelled as its UTF-8 byte
sequence and the derivation function as an arbitrary function of the seed
bytes. -/

/-- The 32-byte name seed buffer: the first 32 bytes of the name's UTF-8
encoding, zero-padded to length 32. -/
def vaultNameBuffer (nameBytes : List ℕ) : List ℕ :=
  nameBytes.take 32 ++ List.replicate (32 - (nameBytes.take 32).length) 0

/-- Embedding of `getVaultPDA` (`src/client/user-operation.ts` lines 69-77,
identically `src/user-operation.ts` lines 65-73): derives the address from
the seeds `["vault", nameBuffer]` with `findProgramAddressSync`, modelled
as an arbitrary derivation function of the seed byte lists. -/
def getVaultPDA {Addr : Type} (findAddr : List ℕ → List ℕ → Addr)
    (nameBytes : List ℕ) : Addr :=
  findAddr [118, 97, 117, 108, 116] (vaultNameBuffer nameBytes)

/-! ### Engine operations

Modelled from the spec: the Rust instruction handlers of `simple_vault` are
not part of the repository sources (only the IDL, clients and tests are), so
the accounting engine of spec section 4 is modelled here from the spec's
words: checked `u64` arithmetic, floor/ceil divisions as prescribed, the
price lock, and the post-operation invariant check surfacing the distinct
`invariantViolation` error.  Error names follow the IDL error enum. -/

/-- Error enum of the program (names from the IDL error list). -/
inductive VaultError where
  | insufficientFunds
  | invalidAmount
  | unstakeLockupNotFinished
  | noUnstakeRequest
  | unstakeRequestAlreadyExists
  | vaultPaused
  | invalidSharesCalculation
  | mathOverflow
  | divisionByZero
  | vaultIsFull
  | minimumStakeAmountNotMet
  | invariantViolation
  | cannotStakeWhenAllSharesPending
  | insufficientLiquidity
  deriving Repr, DecidableEq

/-- Active share pool: `total_shares - pending_unstake_shares` (engine side,
where the invariants keep the subtraction in range). -/
def activeShares (v : Vault) : ℕ := v.totalShares - v.pendingUnstakeShares

/-- Assets backing the active pool: `total_assets - reserved_assets`. -/
def availableAssets (v : Vault) : ℕ := v.totalAssets - v.reservedAssets

/-- The two P4 solvency inequalities. -/
def VaultInvariant (v : Vault) : Prop :=
  v.reservedAssets ≤ v.totalAssets ∧ v.pendingUnstakeShares ≤ v.totalShares

instance (v : Vault) : Decidable (VaultInvariant v) := by
  unfold VaultInvariant; infer_instance

/-- Modelled from the spec: the post-operation invariant check (spec 4.3 step
5 and the P4 property); a violating state is surfaced as the distinct fatal
`invariantViolation` error. -/
def checkInvariants (v : Vault) : Except VaultError Vault :=
  if VaultInvariant v then .ok v else .error .invariantViolation

/-- Every mutating operation finishes through this check of the written
vault record. -/
def checkedFinish (v : Vault) (d : Depositor) :
    Except VaultError (Vault × Depositor) :=
  if VaultInvariant v then .ok (v, d) else .error .invariantViolation

/-- Finishing step of `unstake`, which additionally reports the amount the
external transfer primitive is invoked with. -/
def checkedFinishAmt (v : Vault) (d : Depositor) (amt : ℕ) :
    Except VaultError (Vault × Depositor × ℕ) :=
  if VaultInvariant v then .ok (v, d, amt) else .error .invariantViolation

/-- Validation step of an operation: reject with error `e` when condition
`c` holds, otherwise continue with `k`.  The spec's validations carry no
partial effect, so a rejection short-circuits the whole operation. -/
def rejectIf {α : Type} (c : Prop) [Decidable c] (e : VaultError)
    (k : Except VaultError α) : Except VaultError α :=
  if c then .error e else k

/-- Ceiling division on naturals (the spec's `ceil` rounding for the shares
reserved by a request). -/
def ceilDiv (a b : ℕ) : ℕ := (a + b - 1) / b

/-- Platform cut of a reward injection:
`floor(amount * management_fee_bps / 10000)`. -/
def rewardPlatformShare (amount fee : ℕ) : ℕ := amount * fee / 10000

/-- Vault cut of a reward injection: the remainder `amount - platform_share`. -/
def rewardVaultShare (amount fee : ℕ) : ℕ := amount - rewardPlatformShare amount fee

/-- Embedding of the client-side 50 percent preview split
(`Math.floor(amount * 0.5)` in `src/reward-injection.ts` lines 93-98 and
`simulateRewardInjection` in `src/client/user-operation.ts` lines 756-769);
`0.5` is exact in binary floating point. -/
def clientPlatformShare (amount : ℕ) : ℤ := ⌊(amount : ℚ) * (1 / 2)⌋

/-- Modelled from the spec (4.3 Stake): validation, bootstrap or
floor-priced minting, checked updates of both records, and the final
invariant check.  The optional MEV cooldown rejection (spec step 5 "may
reject") has no specified threshold and is not modelled; the side effect on
`last_stake_time` (step 6) is.  The depositor must be in the vault's rebase
epoch before its shares enter arithmetic (spec 4.5). -/
def stake (v : Vault) (d : Depositor) (amount : ℕ) (now : ℤ) :
    Except VaultError (Vault × Depositor) :=
  let shares :=
    if activeShares v = 0 then amount
    else amount * activeShares v / availableAssets v
  rejectIf (v.isPaused = true) .vaultPaused <|
  rejectIf (amount = 0) .invalidAmount <|
  rejectIf (amount < v.minStakeAmount) .minimumStakeAmountNotMet <|
  rejectIf (v.maxTotalAssets ≠ 0 ∧ v.maxTotalAssets < v.totalAssets + amount)
    .vaultIsFull <|
  rejectIf (d.lastRebaseVersion ≠ v.rebaseVersion) .invalidSharesCalculation <|
  rejectIf (v.totalAssets < v.reservedAssets) .mathOverflow <|
  rejectIf (v.totalShares < v.pendingUnstakeShares) .mathOverflow <|
  rejectIf (activeShares v = 0 ∧ 0 < v.totalAssets)
    .cannotStakeWhenAllSharesPending <|
  rejectIf (activeShares v ≠ 0 ∧ availableAssets v = 0) .divisionByZero <|
  rejectIf (U64MAX < v.totalAssets + amount) .mathOverflow <|
  rejectIf (U64MAX < v.totalShares + shares) .mathOverflow <|
  rejectIf (U64MAX < d.shares + shares) .mathOverflow <|
  rejectIf (U64MAX < d.totalStaked + amount) .mathOverflow <|
  checkedFinish
    { v with totalAssets := v.totalAssets + amount
             totalShares := v.totalShares + shares }
    { d with shares := d.shares + shares
             totalStaked := d.totalStaked + amount
             lastStakeTime := now }

/-- Modelled from the spec (4.3 Request Unstake): rejects a duplicate
request, an empty position or an amount above the depositor's value;
computes `shares_to_unstake` (all shares for the `u64::MAX` sentinel, else
ceiling-divided and clamped to the held shares), locks
`asset_per_share_at_request = available * PRECISION / active`, applies the
four atomic updates and the step-5 invariant check. -/
def requestUnstake (v : Vault) (d : Depositor) (amount : ℕ) (now : ℤ) :
    Except VaultError (Vault × Depositor) :=
  let sharesToUnstake :=
    if amount = U64MAX then d.shares
    else min (ceilDiv (amount * activeShares v) (availableAssets v)) d.shares
  let assetPerShare := availableAssets v * PRECISION / activeShares v
  let reservedAdd := sharesToUnstake * assetPerShare / PRECISION
  rejectIf (v.isPaused = true) .vaultPaused <|
  rejectIf (d.unstakeRequest.shares ≠ 0) .unstakeRequestAlreadyExists <|
  rejectIf (d.shares = 0) .insufficientFunds <|
  rejectIf (d.lastRebaseVersion ≠ v.rebaseVersion) .invalidSharesCalculation <|
  rejectIf (v.totalAssets < v.reservedAssets) .mathOverflow <|
  rejectIf (v.totalShares < v.pendingUnstakeShares) .mathOverflow <|
  rejectIf (activeShares v = 0) .divisionByZero <|
  rejectIf (availableAssets v = 0) .divisionByZero <|
  rejectIf (amount ≠ U64MAX ∧ d.shares * availableAssets v / activeShares v < amount)
    .insufficientLiquidity <|
  rejectIf (U64MAX < reservedAdd) .mathOverflow <|
  rejectIf (U64MAX < v.pendingUnstakeShares + sharesToUnstake) .mathOverflow <|
  rejectIf (U64MAX < v.reservedAssets + reservedAdd) .mathOverflow <|
  checkedFinish
    { v with pendingUnstakeShares := v.pendingUnstakeShares + sharesToUnstake
             reservedAssets := v.reservedAssets + reservedAdd }
    { d with shares := d.shares - sharesToUnstake
             unstakeRequest :=
               { shares := sharesToUnstake
                 requestTime := now
                 assetPerShareAtRequest := assetPerShare } }

/-- Modelled from the spec (4.3 Cancel Unstake Request): rejects when no
request is pending, otherwise reverses the request's four updates using the
values determined by the stored request fields (the original locked
reservation, not the current price), then checks the invariants. -/
def cancelUnstakeRequest (v : Vault) (d : Depositor) :
    Except VaultError (Vault × Depositor) :=
  let s := d.unstakeRequest.shares
  let reservedAmt := s * d.unstakeRequest.assetPerShareAtRequest / PRECISION
  rejectIf (d.unstakeRequest.shares = 0) .noUnstakeRequest <|
  rejectIf (v.pendingUnstakeShares < s) .mathOverflow <|
  rejectIf (v.reservedAssets < reservedAmt) .mathOverflow <|
  rejectIf (U64MAX < d.shares + s) .mathOverflow <|
  checkedFinish
    { v with pendingUnstakeShares := v.pendingUnstakeShares - s
             reservedAssets := v.reservedAssets - reservedAmt }
    { d with shares := d.shares + s
             unstakeRequest := {} }

/-- Modelled from the spec (4.3 Execute Unstake): rejects when no request is
pending or the lockup has not elapsed; pays
`floor(request.shares * request.asset_per_share_at_request / PRECISION)`
at the locked price, applies the checked ledger updates, clears the
request, checks the invariants, and reports the amount handed to the
external transfer. -/
def unstake (v : Vault) (d : Depositor) (now : ℤ) :
    Except VaultError (Vault × Depositor × ℕ) :=
  let s := d.unstakeRequest.shares
  let amount := s * d.unstakeRequest.assetPerShareAtRequest / PRECISION
  rejectIf (d.unstakeRequest.shares = 0) .noUnstakeRequest <|
  rejectIf (now < d.unstakeRequest.requestTime + v.unstakeLockupPeriod)
    .unstakeLockupNotFinished <|
  rejectIf (v.totalShares < s) .mathOverflow <|
  rejectIf (v.totalAssets < amount) .mathOverflow <|
  rejectIf (v.pendingUnstakeShares < s) .mathOverflow <|
  rejectIf (v.reservedAssets < amount) .mathOverflow <|
  rejectIf (U64MAX < d.totalUnstaked + amount) .mathOverflow <|
  checkedFinishAmt
    { v with totalShares := v.totalShares - s
             totalAssets := v.totalAssets - amount
             pendingUnstakeShares := v.pendingUnstakeShares - s
             reservedAssets := v.reservedAssets - amount }
    { d with unstakeRequest := {}
             totalUnstaked := d.totalUnstaked + amount }
    amount

/-- Modelled from the spec (4.4 Reward Distribution): rejects when paused or
zero; splits `platform_share = floor(amount * fee / 10000)` (transferred
externally, never entering share accounting) from
`vault_share = amount - platform_share`, which compounds into
`total_assets` and `total_rewards`; no shares are minted.  Ends with the
invariant check. -/
def addRewards (v : Vault) (amount : ℕ) (now : ℤ) : Except VaultError Vault :=
  let vaultShare := rewardVaultShare amount v.managementFee
  rejectIf (v.isPaused = true) .vaultPaused <|
  rejectIf (amount = 0) .invalidAmount <|
  rejectIf (amount < rewardPlatformShare amount v.managementFee) .mathOverflow <|
  rejectIf (U64MAX < v.totalAssets + vaultShare) .mathOverflow <|
  rejectIf (U64MAX < v.totalRewards + vaultShare) .mathOverflow <|
  checkInvariants
    { v with totalAssets := v.totalAssets + vaultShare
             totalRewards := v.totalRewards + vaultShare
             lastRewardsUpdate := now }

/-- Modelled from the spec (4.5 Rebase Engine, `apply_rebase`): an owner
supplied scale-down factor divides `total_shares` and
`pending_unstake_shares`; a factor that would lose precision is rejected;
the epoch counter advances and the cumulative factor is recorded in
`shares_base`.  Ends with the invariant check. -/
def applyRebase (v : Vault) (factor : ℕ) : Except VaultError Vault :=
  rejectIf (factor ≤ 1) .invalidAmount <|
  rejectIf (¬ (factor ∣ v.totalShares ∧ factor ∣ v.pendingUnstakeShares))
    .invalidSharesCalculation <|
  checkInvariants
    { v with totalShares := v.totalShares / factor
             pendingUnstakeShares := v.pendingUnstakeShares / factor
             rebaseVersion := v.rebaseVersion + 1
             sharesBase := v.sharesBase * factor }

/-- Modelled from the spec (4.5 Rebase Engine, `sync_rebase`): when the
depositor is behind the vault's epoch, its shares and any pending request's
shares (but not the request's locked asset-denominated price) are rescaled
by the accumulated factor delta; precision-losing catch-ups are rejected.
The vault record is read, never written; the final check still surfaces a
violating vault state. -/
def syncRebase (v : Vault) (d : Depositor) :
    Except VaultError (Vault × Depositor) :=
  let delta := v.sharesBase / d.lastSharesBase
  if d.lastRebaseVersion = v.rebaseVersion then checkedFinish v d
  else
    rejectIf (¬ (d.lastSharesBase ∣ v.sharesBase)) .invalidSharesCalculation <|
    rejectIf (delta = 0) .divisionByZero <|
    rejectIf (¬ (delta ∣ d.shares ∧ delta ∣ d.unstakeRequest.shares))
      .invalidSharesCalculation <|
    checkedFinish v
      { d with shares := d.shares / delta
               unstakeRequest :=
                 { d.unstakeRequest with shares := d.unstakeRequest.shares / delta }
               lastRebaseVersion := v.rebaseVersion
               lastSharesBase := v.sharesBase }

/-- One operation of the engine, as dispatched against a vault and a
depositor record. -/
inductive Op where
  | stake (amount : ℕ) (now : ℤ)
  | requestUnstake (amount : ℕ) (now : ℤ)
  | cancelUnstakeRequest
  | unstake (now : ℤ)
  | addRewards (amount : ℕ) (now : ℤ)
  | applyRebase (factor : ℕ)
  | syncRebase
  deriving Repr, DecidableEq

/-- Dispatch of one engine operation on the pair of records. -/
def applyOp (op : Op) (v : Vault) (d : Depositor) :
    Except VaultError (Vault × Depositor) :=
  match op with
  | .stake a n => stake v d a n
  | .requestUnstake a n => requestUnstake v d a n
  | .cancelUnstakeRequest => cancelUnstakeRequest v d
  | .unstake n => (unstake v d n).map (fun r => (r.1, r.2.1))
  | .addRewards a n => (addRewards v a n).map (fun v2 => (v2, d))
  | .applyRebase f => (applyRebase v f).map (fun v2 => (v2, d))
  | .syncRebase => syncRebase v d

/-- A sequence of reward injections applied to the vault record; a rejected
injection leaves the record unchanged (spec 7: all effects or none). -/
def addRewardsFold (v : Vault) (injections : List (ℕ × ℤ)) : Vault :=
  injections.foldl
    (fun vv an =>
      match addRewards vv an.1 an.2 with
      | .ok v2 => v2
      | .error _ => vv)
    v

/-! ## Theorems -/

/-- C1: the read-only asset-value query over the active pool
(`calculateUserValue`) returns, whenever
`active_shares = total_shares - pending_unstake_shares` is positive, the
floor of `depositor.shares * (total_assets - reserved_assets) / active_shares`
(stated here with the u64 range facts `reserved <= total` and
`pending < total_shares` bridging the JavaScript integers to natural-number
floor division), returns 0 when `active_shares` is zero, and mutates neither
the vault record nor the depositor record (the run returns both records as
fetched). -/
theorem calculateUserValue_floor_active_pool (v : Vault) (d : Depositor) :
    (v.reservedAssets ≤ v.totalAssets → v.pendingUnstakeShares < v.totalShares →
      (calculateUserValue v d).value =
        ((d.shares * (v.totalAssets - v.reservedAssets) /
          (v.totalShares - v.pendingUnstakeShares) : ℕ) : ℤ)) ∧
    (activeSharesZ v = 0 → (calculateUserValue v d).value = 0) ∧
    calculateUserValueRun v d = (calculateUserValue v d, v, d) := by
  have hval : (calculateUserValue v d).value =
      if 0 < activeSharesZ v then
        ⌊((d.shares : ℚ) * ((availableAssetsZ v : ℤ) : ℚ)) / (((activeSharesZ v : ℤ)) : ℚ)⌋
      else 0 := rfl
  refine ⟨?_, ?_, rfl⟩
  · intro hR hP
    have hA : activeSharesZ v = ((v.totalShares - v.pendingUnstakeShares : ℕ) : ℤ) := by
      unfold activeSharesZ; omega
    have hB : availableAssetsZ v = ((v.totalAssets - v.reservedAssets : ℕ) : ℤ) := by
      unfold availableAssetsZ; omega
    have hpos : (0 : ℤ) < activeSharesZ v := by unfold activeSharesZ; omega
    rw [hval, if_pos hpos, hA, hB]
    have hnum : ((d.shares : ℚ)) * ((((v.totalAssets - v.reservedAssets : ℕ) : ℤ)) : ℚ) =
        (((d.shares * (v.totalAssets - v.reservedAssets) : ℕ) : ℤ) : ℚ) := by
      push_cast; ring
    have hden : (((((v.totalShares - v.pendingUnstakeShares : ℕ) : ℤ)) : ℚ)) =
        (((v.totalShares - v.pendingUnstakeShares : ℕ)) : ℚ) := by
      push_cast; ring
    rw [hnum, hden, Rat.floor_intCast_div_natCast]
    push_cast [Int.natCast_div]
    ring
  · intro h0
    rw [hval, if_neg (by omega)]

/-- C1 witness: a concrete state with a positive active pool, evaluated. -/
theorem calculateUserValue_floor_active_pool_witness :
    (calculateUserValue
      { totalShares := 3, totalAssets := 7, reservedAssets := 1, pendingUnstakeShares := 1 }
      { shares := 2 }).value = 6 := by
  have h := (calculateUserValue_floor_active_pool
    { totalShares := 3, totalAssets := 7, reservedAssets := 1, pendingUnstakeShares := 1 }
    { shares := 2 }).1 (by decide) (by decide)
  simpa using h

/-- C5: the reward split computes the platform cut as
`floor(amount * fee_bps / 10000)` and the vault cut as the difference, so
the two cuts sum exactly to the injected amount and the rounding remainder
goes to the vault side (`10000 * vault_share` is at least the exact vault
entitlement `amount * (10000 - fee)`); the client's 50 percent preview
(`Math.floor(amount * 0.5)`) agrees with the formula at fee 5000. -/
theorem rewardSplit_exact (amount fee : ℕ) (hfee : fee ≤ 10000) :
    rewardPlatformShare amount fee = amount * fee / 10000 ∧
    rewardPlatformShare amount fee + rewardVaultShare amount fee = amount ∧
    amount * (10000 - fee) ≤ 10000 * rewardVaultShare amount fee ∧
    clientPlatformShare amount = ((rewardPlatformShare amount 5000 : ℕ) : ℤ) := by
  have h1 : rewardPlatformShare amount fee ≤ amount := by
    unfold rewardPlatformShare
    calc amount * fee / 10000 ≤ amount * 10000 / 10000 :=
          Nat.div_le_div_right (Nat.mul_le_mul_left amount hfee)
      _ = amount := Nat.mul_div_cancel amount (by norm_num)
  have h2 : rewardPlatformShare amount fee * 10000 ≤ amount * fee :=
    Nat.div_mul_le_self (amount * fee) 10000
  refine ⟨rfl, ?_, ?_, ?_⟩
  · unfold rewardVaultShare; omega
  · unfold rewardVaultShare
    zify [hfee, h1]
    have h2z : (rewardPlatformShare amount fee : ℤ) * 10000 ≤ (amount : ℤ) * fee := by
      exact_mod_cast h2
    linarith
  · unfold clientPlatformShare rewardPlatformShare
    have hhalf : ((amount : ℚ)) * (1 / 2) = (((amount : ℤ)) : ℚ) / ((2 : ℕ) : ℚ) := by
      push_cast; ring
    rw [hhalf, Rat.floor_intCast_div_natCast]
    have hdiv : amount * 5000 / 10000 = amount / 2 := by
      rw [Nat.mul_comm amount 5000, show (10000 : ℕ) = 5000 * 2 from rfl]
      exact Nat.mul_div_mul_left amount 2 (by norm_num)
    rw [hdiv]
    exact (Int.natCast_div amount 2).symm

/-- C5 witness: the split evaluated at amount 7, fee 30 basis points. -/
theorem rewardSplit_exact_witness :
    rewardPlatformShare 7 30 + rewardVaultShare 7 30 = 7 :=
  (rewardSplit_exact 7 30 (by decide)).2.1

/-- C6: the unstake-eligibility check allows unstake exactly when a pending
request exists (`request.shares > 0`) and the supplied current time has
reached `request_time + unstake_lockup_period`; with no pending request or
an earlier time it reports that unstake may not proceed. -/
theorem checkUnstakeRequestStatus_iff (d : Depositor) (lockupPeriod currentTime : ℤ) :
    (checkUnstakeRequestStatus d lockupPeriod currentTime).canUnstake = true ↔
      0 < d.unstakeRequest.shares ∧
        d.unstakeRequest.requestTime + lockupPeriod ≤ currentTime := by
  by_cases h : d.unstakeRequest.shares = 0
  · simp [checkUnstakeRequestStatus, h]
  · simp only [checkUnstakeRequestStatus, if_neg h, beq_iff_eq]
    rw [max_eq_left_iff]
    omega

/-- C7: the admin CLI lockup update accepts a new lockup value exactly when
it lies inside the closed interval from 10 minutes to 90 days, in both the
hours command and the minutes command; everything outside (including
non-positive parses) is rejected with an error before the configuration
update is built. -/
theorem updateLockup_bounds_iff (h m : ℚ) :
    (exceptOk (updateLockupHours h) = true ↔ 10 / 60 ≤ h ∧ h ≤ 90 * 24) ∧
    (exceptOk (updateLockupMinutes m) = true ↔ 10 ≤ m ∧ m ≤ 90 * 24 * 60) := by
  constructor
  · unfold updateLockupHours
    split_ifs with h1 h2 h3
    · simp only [exceptOk, Bool.false_eq_true, false_iff]
      rintro ⟨ha, hb⟩; linarith
    · simp only [exceptOk, Bool.false_eq_true, false_iff]
      rintro ⟨ha, hb⟩; linarith
    · simp only [exceptOk, Bool.false_eq_true, false_iff]
      rintro ⟨ha, hb⟩; linarith
    · simp only [exceptOk, true_iff]
      exact ⟨by linarith, by linarith⟩
  · unfold updateLockupMinutes
    split_ifs with h1 h2 h3
    · simp only [exceptOk, Bool.false_eq_true, false_iff]
      rintro ⟨ha, hb⟩; linarith
    · simp only [exceptOk, Bool.false_eq_true, false_iff]
      rintro ⟨ha, hb⟩; linarith
    · simp only [exceptOk, Bool.false_eq_true, false_iff]
      rintro ⟨ha, hb⟩; linarith
    · simp only [exceptOk, true_iff]
      exact ⟨by linarith, by linarith⟩

/-- C10: vault identity depends only on the first 32 bytes of the name's
UTF-8 encoding: any two names agreeing there produce the same 32-byte seed
buffer and hence the same derived address, whatever the derivation
function. -/
theorem getVaultPDA_truncates_name {Addr : Type}
    (findAddr : List ℕ → List ℕ → Addr) (n1 n2 : List ℕ)
    (hsame : n1.take 32 = n2.take 32) :
    getVaultPDA findAddr n1 = getVaultPDA findAddr n2 := by
  unfold getVaultPDA vaultNameBuffer
  rw [hsame]

/-- C10 witness: two distinct 33-byte names sharing the first 32 bytes
derive the same address under a derivation function returning its seeds. -/
theorem getVaultPDA_truncates_name_witness :
    getVaultPDA (fun s n => (s, n)) (List.replicate 32 97 ++ [98]) =
      getVaultPDA (fun s n => (s, n)) (List.replicate 32 97 ++ [99]) :=
  getVaultPDA_truncates_name (fun s n => (s, n)) _ _ (by decide)


/-! ### Helper lemmas about the engine's success paths -/

lemma rejectIf_ok {α : Type} {c : Prop} [Decidable c] {e : VaultError}
    {k : Except VaultError α} {x : α} (h : rejectIf c e k = .ok x) :
    k = .ok x := by
  unfold rejectIf at h
  split_ifs at h with hc
  exact h

lemma checkedFinish_ok_eq {v : Vault} {d : Depositor} {v2 : Vault}
    {d2 : Depositor} (h : checkedFinish v d = .ok (v2, d2)) :
    v2 = v ∧ d2 = d ∧ VaultInvariant v := by
  unfold checkedFinish at h
  split_ifs at h with hc
  injection h with h1
  injection h1 with hv hd
  exact ⟨hv.symm, hd.symm, hc⟩

lemma checkedFinish_ok {v : Vault} {d : Depositor} {v2 : Vault} {d2 : Depositor}
    (h : checkedFinish v d = .ok (v2, d2)) : VaultInvariant v2 := by
  obtain ⟨hv, _, hc⟩ := checkedFinish_ok_eq h
  rw [hv]
  exact hc

lemma checkedFinishAmt_ok_eq {v : Vault} {d : Depositor} {a : ℕ}
    {r : Vault × Depositor × ℕ} (h : checkedFinishAmt v d a = .ok r) :
    r = (v, d, a) ∧ VaultInvariant v := by
  unfold checkedFinishAmt at h
  split_ifs at h with hc
  injection h with h1
  exact ⟨h1.symm, hc⟩

lemma checkInvariants_ok_eq {v w : Vault} (h : checkInvariants v = .ok w) :
    w = v ∧ VaultInvariant v := by
  unfold checkInvariants at h
  split_ifs at h with hc
  injection h with h1
  exact ⟨h1.symm, hc⟩

lemma stake_inv {v : Vault} {d : Depositor} {a : ℕ} {n : ℤ} {v2 : Vault}
    {d2 : Depositor} (h : stake v d a n = .ok (v2, d2)) : VaultInvariant v2 := by
  unfold stake at h
  repeat replace h := rejectIf_ok h
  exact checkedFinish_ok h

lemma requestUnstake_inv {v : Vault} {d : Depositor} {a : ℕ} {n : ℤ} {v2 : Vault}
    {d2 : Depositor} (h : requestUnstake v d a n = .ok (v2, d2)) :
    VaultInvariant v2 := by
  unfold requestUnstake at h
  repeat replace h := rejectIf_ok h
  exact checkedFinish_ok h

lemma cancelUnstakeRequest_inv {v : Vault} {d : Depositor} {v2 : Vault}
    {d2 : Depositor} (h : cancelUnstakeRequest v d = .ok (v2, d2)) :
    VaultInvariant v2 := by
  unfold cancelUnstakeRequest at h
  repeat replace h := rejectIf_ok h
  exact checkedFinish_ok h

lemma unstake_inv {v : Vault} {d : Depositor} {n : ℤ} {r : Vault × Depositor × ℕ}
    (h : unstake v d n = .ok r) : VaultInvariant r.1 := by
  unfold unstake at h
  repeat replace h := rejectIf_ok h
  obtain ⟨hr, hc⟩ := checkedFinishAmt_ok_eq h
  rw [hr]
  exact hc

lemma addRewards_inv {v : Vault} {a : ℕ} {n : ℤ} {w : Vault}
    (h : addRewards v a n = .ok w) : VaultInvariant w := by
  unfold addRewards at h
  repeat replace h := rejectIf_ok h
  obtain ⟨hw, hc⟩ := checkInvariants_ok_eq h
  rw [hw]
  exact hc

lemma applyRebase_inv {v : Vault} {f : ℕ} {w : Vault}
    (h : applyRebase v f = .ok w) : VaultInvariant w := by
  unfold applyRebase at h
  repeat replace h := rejectIf_ok h
  obtain ⟨hw, hc⟩ := checkInvariants_ok_eq h
  rw [hw]
  exact hc

lemma syncRebase_inv {v : Vault} {d : Depositor} {v2 : Vault} {d2 : Depositor}
    (h : syncRebase v d = .ok (v2, d2)) : VaultInvariant v2 := by
  unfold syncRebase at h
  split_ifs at h with hver
  · exact checkedFinish_ok h
  · repeat replace h := rejectIf_ok h
    exact checkedFinish_ok h

lemma unstake_ok_payout {v : Vault} {d : Depositor} {n : ℤ}
    {r : Vault × Depositor × ℕ} (h : unstake v d n = .ok r) :
    r.2.2 = d.unstakeRequest.shares * d.unstakeRequest.assetPerShareAtRequest /
      PRECISION := by
  unfold unstake at h
  repeat replace h := rejectIf_ok h
  obtain ⟨hr, _⟩ := checkedFinishAmt_ok_eq h
  rw [hr]

lemma addRewards_lockup {v : Vault} {a : ℕ} {n : ℤ} {w : Vault}
    (h : addRewards v a n = .ok w) :
    w.unstakeLockupPeriod = v.unstakeLockupPeriod := by
  unfold addRewards at h
  repeat replace h := rejectIf_ok h
  obtain ⟨hw, _⟩ := checkInvariants_ok_eq h
  rw [hw]

/-! ### Claim theorems about the engine -/

/-- C2: a successful `request_unstake` applies the four updates atomically:
with `s` the computed shares-to-unstake stored in the request, the
depositor's shares drop by exactly `s` (and `s` never exceeds the held
shares), the stored request carries `s` and the request time, the vault's
`pending_unstake_shares` grows by exactly `s`, and `reserved_assets` grows
by exactly `floor(s * asset_per_share_at_request / PRECISION)`. -/
theorem requestUnstake_atomic_updates (v : Vault) (d : Depositor) (amount : ℕ)
    (now : ℤ) (v2 : Vault) (d2 : Depositor)
    (_hidle : d.unstakeRequest.shares = 0)
    (h : requestUnstake v d amount now = .ok (v2, d2)) :
    d2.shares = d.shares - d2.unstakeRequest.shares ∧
    d2.unstakeRequest.shares ≤ d.shares ∧
    d2.unstakeRequest.requestTime = now ∧
    v2.pendingUnstakeShares = v.pendingUnstakeShares + d2.unstakeRequest.shares ∧
    v2.reservedAssets = v.reservedAssets +
      d2.unstakeRequest.shares * d2.unstakeRequest.assetPerShareAtRequest /
        PRECISION := by
  unfold requestUnstake at h
  repeat replace h := rejectIf_ok h
  obtain ⟨hv, hd, _⟩ := checkedFinish_ok_eq h
  subst hv
  subst hd
  refine ⟨rfl, ?_, rfl, rfl, rfl⟩
  show (if amount = U64MAX then d.shares
        else min (ceilDiv (amount * activeShares v) (availableAssets v)) d.shares) ≤
      d.shares
  split
  · exact Nat.le_refl _
  · exact Nat.min_le_right _ _

/-- C3: the payout of a successful `unstake` is
`floor(request.shares * request.asset_per_share_at_request / PRECISION)`,
a function of the stored request fields only, so any sequence of
`add_rewards` injections (each of which also leaves the lockup
configuration untouched) between the request and the unstake leaves that
payout unchanged. -/
theorem unstake_payout_reward_invariant (v : Vault) (injections : List (ℕ × ℤ)) :
    (addRewardsFold v injections).unstakeLockupPeriod = v.unstakeLockupPeriod ∧
    ∀ (d : Depositor) (now : ℤ) (r : Vault × Depositor × ℕ),
      unstake (addRewardsFold v injections) d now = .ok r →
      r.2.2 = d.unstakeRequest.shares * d.unstakeRequest.assetPerShareAtRequest /
        PRECISION := by
  refine ⟨?_, fun d now r h => unstake_ok_payout h⟩
  induction injections generalizing v with
  | nil => rfl
  | cons a t ih =>
      have hstep : (match addRewards v a.1 a.2 with
          | .ok v2 => v2
          | .error _ => v).unstakeLockupPeriod = v.unstakeLockupPeriod := by
        cases ha : addRewards v a.1 a.2 with
        | ok w => exact addRewards_lockup ha
        | error e => rfl
      exact (ih _).trans hstep

/-- C4: every engine operation that succeeds leaves the vault satisfying
both solvency inequalities `reserved_assets <= total_assets` and
`pending_unstake_shares <= total_shares`, and a written state violating
either inequality is surfaced as the distinct fatal `invariantViolation`
error instead of being returned. -/
theorem applyOp_preserves_solvency :
    (∀ (op : Op) (v : Vault) (d : Depositor) (v2 : Vault) (d2 : Depositor),
      applyOp op v d = .ok (v2, d2) →
      v2.reservedAssets ≤ v2.totalAssets ∧
        v2.pendingUnstakeShares ≤ v2.totalShares) ∧
    (∀ v : Vault, checkInvariants v = .error .invariantViolation ↔
      ¬ (v.reservedAssets ≤ v.totalAssets ∧
         v.pendingUnstakeShares ≤ v.totalShares)) := by
  constructor
  · intro op v d v2 d2 h
    cases op with
    | stake a n => exact stake_inv h
    | requestUnstake a n => exact requestUnstake_inv h
    | cancelUnstakeRequest => exact cancelUnstakeRequest_inv h
    | unstake n =>
        simp only [applyOp] at h
        cases hu : unstake v d n with
        | error e => rw [hu] at h; exact Except.noConfusion h
        | ok r =>
            rw [hu] at h
            simp only [Except.map] at h
            injection h with h1
            have hv : r.1 = v2 := congrArg Prod.fst h1
            rw [← hv]
            exact unstake_inv hu
    | addRewards a n =>
        simp only [applyOp] at h
        cases hu : addRewards v a n with
        | error e => rw [hu] at h; exact Except.noConfusion h
        | ok w =>
            rw [hu] at h
            simp only [Except.map] at h
            injection h with h1
            have hv : w = v2 := congrArg Prod.fst h1
            rw [← hv]
            exact addRewards_inv hu
    | applyRebase f =>
        simp only [applyOp] at h
        cases hu : applyRebase v f with
        | error e => rw [hu] at h; exact Except.noConfusion h
        | ok w =>
            rw [hu] at h
            simp only [Except.map] at h
            injection h with h1
            have hv : w = v2 := congrArg Prod.fst h1
            rw [← hv]
            exact applyRebase_inv hu
    | syncRebase => exact syncRebase_inv h
  · intro v
    by_cases hc : VaultInvariant v
    · unfold checkInvariants
      rw [if_pos hc]
      constructor
      · intro habs; exact Except.noConfusion habs
      · intro habs; exact absurd hc habs
    · unfold checkInvariants
      rw [if_neg hc]
      exact ⟨fun _ => hc, fun _ => rfl⟩



/-! ### Concrete states for the engine witnesses -/

def vReqPre : Vault := { totalShares := 100, totalAssets := 200 }

def dReqPre : Depositor := { shares := 100 }

def vReqPost : Vault :=
  { totalShares := 100, totalAssets := 200, reservedAssets := 50,
    pendingUnstakeShares := 25 }

def dReqPost : Depositor :=
  { shares := 75,
    unstakeRequest :=
      { shares := 25, requestTime := 7, assetPerShareAtRequest := 2000000000000 } }

/-- C2 witness: the four updates evaluated on a concrete request of 50
asset units against a 100-share, 200-asset vault. -/
theorem requestUnstake_atomic_updates_witness :
    dReqPost.shares = dReqPre.shares - dReqPost.unstakeRequest.shares ∧
    dReqPost.unstakeRequest.shares ≤ dReqPre.shares ∧
    dReqPost.unstakeRequest.requestTime = 7 ∧
    vReqPost.pendingUnstakeShares =
      vReqPre.pendingUnstakeShares + dReqPost.unstakeRequest.shares ∧
    vReqPost.reservedAssets = vReqPre.reservedAssets +
      dReqPost.unstakeRequest.shares * dReqPost.unstakeRequest.assetPerShareAtRequest /
        PRECISION :=
  requestUnstake_atomic_updates vReqPre dReqPre 50 7 vReqPost dReqPost rfl rfl

def vPay : Vault :=
  { totalShares := 10, totalAssets := 20, reservedAssets := 6,
    pendingUnstakeShares := 2, managementFee := 5000, unstakeLockupPeriod := 5 }

def dPay : Depositor :=
  { shares := 4,
    unstakeRequest :=
      { shares := 2, requestTime := 0, assetPerShareAtRequest := 3 * PRECISION } }

def vPayPost : Vault :=
  { totalShares := 8, totalAssets := 64, reservedAssets := 0,
    pendingUnstakeShares := 0, totalRewards := 50, managementFee := 5000,
    unstakeLockupPeriod := 5, lastRewardsUpdate := 1 }

def dPayPost : Depositor := { shares := 4, totalUnstaked := 6 }

/-- C3 witness: unstaking after a 100-unit reward injection still pays the
locked 6 units. -/
theorem unstake_payout_reward_invariant_witness :
    (6 : ℕ) = dPay.unstakeRequest.shares * dPay.unstakeRequest.assetPerShareAtRequest /
      PRECISION :=
  (unstake_payout_reward_invariant vPay [(100, 1)]).2 dPay 10
    (vPayPost, dPayPost, 6) rfl

def vSolv : Vault := { totalShares := 100, totalAssets := 210, totalRewards := 10 }

/-- C4 witness: the invariants evaluated after a concrete reward injection. -/
theorem applyOp_preserves_solvency_witness :
    vSolv.reservedAssets ≤ vSolv.totalAssets ∧
    vSolv.pendingUnstakeShares ≤ vSolv.totalShares :=
  applyOp_preserves_solvency.1 (Op.addRewards 10 0) vReqPre dReqPre vSolv dReqPre
    rfl

/-! ### Claims about the division guards and the two client value formulas -/

lemma calculateUserValue_sharePercent_eq (v : Vault) (d : Depositor) :
    (calculateUserValue v d).sharePercent =
      jsDiv ((d.shares : ℚ) * 100) ((activeSharesZ v : ℚ)) := rfl

lemma calculateUserValue_value_eq (v : Vault) (d : Depositor) :
    (calculateUserValue v d).value =
      if 0 < activeSharesZ v then
        ⌊((d.shares : ℚ) * ((availableAssetsZ v : ℚ))) / ((activeSharesZ v : ℚ))⌋
      else 0 := rfl

/-- C8 counterexample: at a vault state whose active share pool is zero, the
share-percentage computation of `calculateUserValue` still divides by
`activeShares` without detecting the zero divisor first (the modelled
division reports the zero divisor as `none`, standing for the non-finite
JavaScript result, which is neither a caught error nor a zero result), so
not every division by `active_shares` is guarded. -/
theorem sharePercent_division_unguarded :
    activeSharesZ { totalShares := 5, totalAssets := 10, pendingUnstakeShares := 5 } = 0 ∧
    (calculateUserValue
      { totalShares := 5, totalAssets := 10, pendingUnstakeShares := 5 }
      { shares := 3 }).sharePercent = none := by
  constructor
  · decide
  · rw [calculateUserValue_sharePercent_eq]
    norm_num [jsDiv, activeSharesZ]

/-- C8 (amended): the asset-value computations that divide by
`active_shares` detect the zero case first and return the defined zero
result, but the share-percentage computation in `calculateUserValue`
divides by `active_shares` unguarded and produces a non-finite value
(modelled `none`) when `active_shares` is zero. -/
theorem zeroActiveShares_guarded_values (v : Vault) (d : Depositor)
    (h0 : activeSharesZ v = 0) :
    (calculateUserValue v d).value = 0 ∧
    getUserAssetValueClient v d = 0 ∧
    (calculateUserValue v d).sharePercent = none := by
  refine ⟨?_, ?_, ?_⟩
  · rw [calculateUserValue_value_eq, if_neg (by omega)]
  · unfold getUserAssetValueClient
    rw [if_neg (by omega)]
  · rw [calculateUserValue_sharePercent_eq, h0]
    simp [jsDiv]

/-- C8 witness: the guarded computations evaluated at a concrete state with
an empty active pool. -/
theorem zeroActiveShares_guarded_values_witness :
    (calculateUserValue { totalShares := 2, pendingUnstakeShares := 2 }
      { shares := 1 }).value = 0 ∧
    getUserAssetValueClient { totalShares := 2, pendingUnstakeShares := 2 }
      { shares := 1 } = 0 ∧
    (calculateUserValue { totalShares := 2, pendingUnstakeShares := 2 }
      { shares := 1 }).sharePercent = none :=
  zeroActiveShares_guarded_values _ _ (by decide)

def vAgree : Vault :=
  { totalShares := 100, totalAssets := 100, reservedAssets := 10,
    pendingUnstakeShares := 10 }

def dAgree : Depositor := { shares := 50 }

def vDiffer : Vault :=
  { totalShares := 100, totalAssets := 110, reservedAssets := 10,
    pendingUnstakeShares := 10 }

/-- C9 counterexample: the two client asset-value computations return equal
results (both 50) at a vault state whose pending shares and reserved assets
are both nonzero, so equality does not hold exactly when
`pending_unstake_shares = 0` and `reserved_assets = 0`. -/
theorem assetValue_variants_agree_despite_pending :
    0 < vAgree.totalShares ∧ vAgree.pendingUnstakeShares ≠ 0 ∧
    vAgree.reservedAssets ≠ 0 ∧
    getUserAssetValueRoot vAgree dAgree = getUserAssetValueClient vAgree dAgree := by
  refine ⟨by decide, by decide, by decide, ?_⟩
  norm_num [getUserAssetValueRoot, getUserAssetValueClient, activeSharesZ,
    availableAssetsZ, vAgree, dAgree]

/-- C9 (amended): the two client asset-value computations agree for every
depositor whenever the vault has no pending unstake shares and no reserved
assets (with positive total shares), and they genuinely differ at some
state with pending shares and reserved assets; but the agreement condition
is not exact, since they also coincide at some states with nonzero pending
shares and reserved assets. -/
theorem assetValue_variants_agreement :
    (∀ (v : Vault) (d : Depositor), 0 < v.totalShares →
      v.pendingUnstakeShares = 0 → v.reservedAssets = 0 →
      getUserAssetValueRoot v d = getUserAssetValueClient v d) ∧
    (getUserAssetValueRoot vDiffer dAgree ≠ getUserAssetValueClient vDiffer dAgree ∧
      vDiffer.pendingUnstakeShares ≠ 0 ∧ vDiffer.reservedAssets ≠ 0) := by
  constructor
  · intro v d hS hP hR
    unfold getUserAssetValueRoot getUserAssetValueClient activeSharesZ availableAssetsZ
    rw [hP, hR]
    have hS2 : (0 : ℤ) < (v.totalShares : ℤ) - ((0 : ℕ) : ℤ) := by
      push_cast
      omega
    rw [if_pos hS, if_pos hS2]
    push_cast
    ring
  · refine ⟨?_, by decide, by decide⟩
    norm_num [getUserAssetValueRoot, getUserAssetValueClient, activeSharesZ,
      availableAssetsZ, vDiffer, dAgree]

def vPlain : Vault := { totalShares := 4, totalAssets := 9 }

/-- C9 witness: the agreement direction evaluated at a concrete state with
no pending shares and no reserved assets. -/
theorem assetValue_variants_agreement_witness :
    getUserAssetValueRoot vPlain dAgree = getUserAssetValueClient vPlain dAgree :=
  assetValue_variants_agreement.1 vPlain dAgree (by decide) rfl rfl

end SimpleVault
